import Mathlib

/-!
Verification of the FTC documentation build pipeline (`doc/src/md2tex.py`,
`doc/src/build.py`) against its natural-language specification.

The Python sources are shallowly embedded: pure string manipulation becomes
Lean functions over `String`/`List Char`; the stateful caption resolver
(`get_caption` with its `functools.cache` memo table, the in-memory caption
cache and the persisted cache file) becomes explicit state passing over a
`CapState` record, with the external world (filesystem, md5, captioning
model) abstracted as an `Env` of oracle functions; Python exceptions become
`Option`/`Except` results.
-/

namespace FTCDoc

/-! ### Association lists (Python `dict` as used by the caption cache) -/

/-- Lookup in an association list, mirroring Python `dict.get`. -/
def assocLookup (m : List (String × String)) (k : String) : Option String :=
  match m with
  | [] => none
  | (k', v) :: rest => if k' = k then some v else assocLookup rest k

/-- Insertion `d[k] = v` into an association list, mirroring Python dict
assignment: overwrite an existing binding, else append. -/
def assocInsert (m : List (String × String)) (k v : String) :
    List (String × String) :=
  match m with
  | [] => [(k, v)]
  | (k', v') :: rest =>
    if k' = k then (k, v) :: rest else (k', v') :: assocInsert rest k v

/-! ### Python string primitives used by the sources -/

/-- Python `c in text` membership test for a single character. -/
def strContains (s : String) (c : Char) : Bool :=
  s.data.contains c

/-- Python `text.count(c)` for a single character. -/
def countChar (s : String) (c : Char) : Nat :=
  s.data.count c

/-- Python `s.strip()`: remove leading and trailing whitespace. -/
def pyStrip (s : String) : String :=
  String.mk (((s.data.dropWhile Char.isWhitespace).reverse.dropWhile
    Char.isWhitespace).reverse)

/-- Python `s.capitalize()`: first character uppercased, every following
character lowercased. -/
def pyCapitalize (s : String) : String :=
  match s.data with
  | [] => ""
  | c :: cs => String.mk (c.toUpper :: cs.map Char.toLower)

/-- Does the string end with the single character `c`? (Python
`s.endswith(c)` for a one-character needle.) -/
def lastCharIs (s : String) (c : Char) : Bool :=
  match s.data.getLast? with
  | some c' => c' = c
  | none => false

/-- Drop the final character of a string (total; identity on `""`). -/
def strDropLast (s : String) : String :=
  String.mk s.data.dropLast

/-- Python `s.removesuffix(",")`. -/
def pyRemoveComma (s : String) : String :=
  if lastCharIs s ',' then strDropLast s else s

/-- The per-attribute cleaning `v.strip().removesuffix(",")` applied to every
attribute value of an image node (md2tex.py line 141). -/
def pyCleanValue (s : String) : String :=
  pyRemoveComma (pyStrip s)

/-- Continuation of a Python integer literal after its first digit: further
digits, where a single `_` may stand between two digits.  Returns the digit
sequence with the underscores removed. -/
def pyDigitsRest : List Char → Option (List Char)
  | [] => some []
  | c :: cs =>
    if c = '_' then
      match cs with
      | [] => none
      | c2 :: cs2 =>
        if c2.isDigit then (pyDigitsRest cs2).map fun l => c2 :: l else none
    else if c.isDigit then (pyDigitsRest cs).map fun l => c :: l
    else none

/-- A Python integer literal body: a nonempty digit sequence in which a
single `_` may stand between two digits (never leading, trailing or
doubled). -/
def pyIntDigits : List Char → Option (List Char)
  | [] => none
  | c :: cs =>
    if c.isDigit then (pyDigitsRest cs).map fun l => c :: l else none

/-- Numeric value of a digit sequence. -/
def digitsVal : List Char → Nat → Nat
  | [], acc => acc
  | c :: cs, acc => digitsVal cs (acc * 10 + (c.toNat - 48))

/-- Python `int(s)` on a decimal string: surrounding whitespace is ignored,
an optional single `+`/`-` sign precedes the digits, and single underscores
may separate digits (so `int("-50")`, `int("50 ")` and `int("5_0")` all
succeed).  `none` models the `ValueError` raised on a malformed literal. -/
def pyInt (s : String) : Option Int :=
  match (pyStrip s).data with
  | '+' :: rest => (pyIntDigits rest).map fun ds => (digitsVal ds 0 : Int)
  | '-' :: rest => (pyIntDigits rest).map fun ds => -(digitsVal ds 0 : Int)
  | t => (pyIntDigits t).map fun ds => (digitsVal ds 0 : Int)

/-- Python `sep.join(l)`. -/
def joinSep (sep : String) : List String → String
  | [] => ""
  | [x] => x
  | x :: xs => x ++ sep ++ joinSep sep xs

/-! ### `build.py`: natural-language list formatting -/

/-- Function `convert_list` from build.py (lines 69-80): one element renders as
itself, two as `A and B`, three or more with an Oxford comma.  `none` models
the `IndexError` raised by `l[-1]` when the list is empty (the `else` branch
is taken and `l[-1]` fails). -/
def convert_list : List String → Option String
  | [] => none
  | [x] => some x
  | [x, y] => some (x ++ " and " ++ y)
  | x :: y :: z :: rest =>
    some (joinSep ", " ((x :: y :: z :: rest).dropLast) ++ ", and " ++
      rest.getLastD z)

/-! ### `md2tex.py`: inline-code branch of the filter -/

/-- The `\mintinline{language}` macro head built at md2tex.py line 109. -/
def mintHead (language : String) : String :=
  "\\mintinline\x7b" ++ language ++ "\x7d"

/-- The `Code()` branch of `filter` (md2tex.py lines 108-119): choose a
verbatim delimiter that does not collide with the text; `Except.error` models
the `RuntimeError` raised when no delimiter is safe. -/
def filterCode (language text : String) : Except String String :=
  if strContains text '!' = false then
    Except.ok (mintHead language ++ "!" ++ text ++ "!")
  else if strContains text '|' = false then
    Except.ok (mintHead language ++ "|" ++ text ++ "|")
  else if countChar text '\x7b' = countChar text '\x7d' then
    Except.ok (mintHead language ++ "\x7b" ++ text ++ "\x7d")
  else
    Except.error ("Unable to parse code block \"" ++ text ++ "\"")

/-! ### Caption cache serialization

`write_caption_cache` / `get_caption_cache` delegate serialization to the
external YAML library.  Modelled from the spec: the cache file is "a
key→value text mapping (hash string → caption string) in a structured
serialization format"; the concrete quoting scheme below stands in for the
external YAML library, which is not part of this repository. -/

/-- The cache as an association list (insertion-ordered Python dict). -/
abbrev CacheMap := List (String × String)

/-- Escape one character for inclusion inside a quoted scalar. -/
def escapeChar (c : Char) : List Char :=
  if c = '\\' then ['\\', '\\']
  else if c = '"' then ['\\', '"']
  else [c]

/-- Escape a character sequence for inclusion inside a quoted scalar. -/
def escapeStr : List Char → List Char
  | [] => []
  | c :: cs => escapeChar c ++ escapeStr cs

/-- Parse the body of a quoted scalar up to (and consuming) the closing
quote; returns the unescaped content and the remaining input. -/
def parseQuotedAux : List Char → Option (List Char × List Char)
  | [] => none
  | c :: rest =>
    if c = '"' then some ([], rest)
    else if c = '\\' then
      match rest with
      | [] => none
      | c2 :: rest2 => (parseQuotedAux rest2).map fun p => (c2 :: p.1, p.2)
    else (parseQuotedAux rest).map fun p => (c :: p.1, p.2)

/-- Serialize one `key: value` line of the cache file. -/
def dumpEntry (k v : String) : List Char :=
  '"' :: escapeStr k.data ++ '"' :: ':' :: ' ' :: '"' :: escapeStr v.data ++
    '"' :: '\n' :: []

/-- Serialize the whole cache; this is the file content written by
`write_caption_cache` (md2tex.py lines 70-72). -/
def dumpCache : CacheMap → List Char
  | [] => []
  | (k, v) :: rest => dumpEntry k v ++ dumpCache rest

/-- Parse one `key: value` line; returns the binding and remaining input. -/
def parseEntry (cs : List Char) : Option (String × String × List Char) :=
  match cs with
  | [] => none
  | c :: rest =>
    if c = '"' then
      match parseQuotedAux rest with
      | none => none
      | some (k, rest1) =>
        match rest1 with
        | ':' :: ' ' :: '"' :: rest2 =>
          match parseQuotedAux rest2 with
          | none => none
          | some (v, rest3) =>
            match rest3 with
            | '\n' :: rest4 => some (String.mk k, String.mk v, rest4)
            | _ => none
        | _ => none
    else none

/-- Fuel-indexed parser over the serialized cache (one entry per step). -/
def loadCacheAux : List Char → Nat → Option CacheMap
  | [], _ => some []
  | _ :: _, 0 => none
  | c :: cs, fuel + 1 =>
    match parseEntry (c :: cs) with
    | none => none
    | some (k, v, rest) =>
      match loadCacheAux rest fuel with
      | none => none
      | some m => some ((k, v) :: m)

/-- Deserialize the cache file; the empty file yields the empty mapping,
matching `load(f.read() or "{}")` in `get_caption_cache` (md2tex.py 64-67). -/
def loadCache (cs : List Char) : Option CacheMap :=
  loadCacheAux cs (cs.length + 1)

/-! ### The caption resolver as a state machine

`get_caption` (md2tex.py lines 75-102) interacts with the filesystem, md5
and the captioning model.  Those externals are oracles in `Env`; the mutable
process state (the `functools.cache` memo table of `get_caption`, the
memoized in-memory cache dict of `get_caption_cache`, and the persisted
cache file) is `CapState`; observable effects are accumulated in `Trace`. -/

/-- External world: whether a resolved path exists on disk, the md5 hex
digest of the bytes at a resolved path, and the raw decoded caption the
model produces for the image at a resolved path. -/
structure Env where
  imageDir : String
  pathExists : String → Bool
  hashOf : String → String
  predict : String → String

/-- Mutable process state of the caption subsystem. -/
structure CapState where
  memo : CacheMap
  mem : Option CacheMap
  file : List Char
deriving DecidableEq

/-- Observable effects of one resolver call: warnings logged, model
invocations, reads of the caption cache (calls to `get_caption_cache`), and
persisted cache writes (calls to `write_caption_cache`). -/
structure Trace where
  warnings : List String
  modelCalls : Nat
  cacheReads : Nat
  cacheWrites : Nat
deriving DecidableEq

/-- POSIX `Path.is_absolute`: the path starts with `/`. -/
def isAbsolutePath (p : String) : Bool :=
  match p.data with
  | '/' :: _ => true
  | _ => false

/-- Path resolution at md2tex.py lines 77-79: relative paths are joined
under the configured image root. -/
def resolvePath (env : Env) (p : String) : String :=
  if isAbsolutePath p then p else env.imageDir ++ "/" ++ p

/-- Function `get_caption_cache` (md2tex.py lines 64-67): memoized lazy load of the
persisted cache; `none` models a raised deserialization error. -/
def getCaptionCacheS (st : CapState) : Option (CacheMap × CapState) :=
  match st.mem with
  | some m => some (m, st)
  | none =>
    match loadCache st.file with
    | some m => some (m, { st with mem := some m })
    | none => none

/-- Function `get_caption` (md2tex.py lines 75-102) including its `functools.cache`
memo table: resolve the path; on a missing image warn and return `""`; else
hash the bytes, consult the cache, and on a miss invoke the model, store the
stripped prediction, and persist the cache.  `none` models an uncaught
exception. -/
def get_caption (env : Env) (st : CapState) (path : String) :
    Option (String × CapState × Trace) :=
  match assocLookup st.memo path with
  | some c => some (c, st, ⟨[], 0, 0, 0⟩)
  | none =>
    let rp := resolvePath env path
    if env.pathExists rp = false then
      some ("", { st with memo := assocInsert st.memo path "" },
        ⟨["Image " ++ rp ++ " does not exist"], 0, 0, 0⟩)
    else
      let h := env.hashOf rp
      match getCaptionCacheS st with
      | none => none
      | some (cache, st1) =>
        match assocLookup cache h with
        | some c =>
          some (c, { st1 with memo := assocInsert st1.memo path c },
            ⟨[], 0, 1, 0⟩)
        | none =>
          let c := pyStrip (env.predict rp)
          let cache2 := assocInsert cache h c
          some (c,
            { memo := assocInsert st1.memo path c
              mem := some cache2
              file := dumpCache cache2 },
            ⟨[], 1, 1, 1⟩)

/-! ### Image branch of the filter -/

/-- Decimal rendering of `n / 100`, mirroring the Python formatting
`f"{int(v) / 100}"` at md2tex.py lines 145-146 and 150-151 (float repr of an
exact two-decimal quotient, e.g. `50 ↦ "0.5"`, `100 ↦ "1.0"`, `7 ↦ "0.07"`). -/
def decimalDiv100 (n : Nat) : String :=
  let q := n / 100
  let r := n % 100
  if r = 0 then toString q ++ ".0"
  else if r % 10 = 0 then toString q ++ "." ++ toString (r / 10)
  else if r < 10 then toString q ++ ".0" ++ toString r
  else toString q ++ "." ++ toString r

/-- Decimal rendering of `i / 100` for a possibly negative integer,
mirroring Python float repr (e.g. `-50 ↦ "-0.5"`). -/
def decimalDiv100Int (i : Int) : String :=
  if i < 0 then "-" ++ decimalDiv100 i.natAbs else decimalDiv100 i.natAbs

/-- Rewrite one size attribute value (md2tex.py lines 144-146 / 149-151): a
trailing `%` becomes the fraction scaled by the given unit; otherwise the
value passes through unchanged.  `none` models the `ValueError` of `int()`
on a malformed percentage. -/
def sizeValue (unit : String) (v : String) : Option String :=
  if lastCharIs v '%' then
    match pyInt (strDropLast v) with
    | none => none
    | some n => some (decimalDiv100Int n ++ unit)
  else some v

/-- The cleaned attribute dict built at md2tex.py lines 140-142. -/
def cleanAttrs (attrs : List (String × String)) : List (String × String) :=
  attrs.map fun kv => (kv.1, pyCleanValue kv.2)

/-- The `width=...,` contribution built at md2tex.py lines 143-147. -/
def widthPart : Option String → Option String
  | none => some ""
  | some wv => (sizeValue "\\linewidth" wv).map fun s => "width=" ++ s ++ ","

/-- The `height=...,` contribution built at md2tex.py lines 148-152. -/
def heightPart : Option String → Option String
  | none => some ""
  | some hv => (sizeValue "\\textheight" hv).map fun s => "height=" ++ s ++ ","

/-- The bracketed size-option group of a figure (md2tex.py lines 138-155):
`width`/`height` contributions are comma-joined, the trailing comma removed,
and the bracket group omitted when empty. -/
def imageFormats (attrs : List (String × String)) : Option String :=
  match widthPart (assocLookup (cleanAttrs attrs) "width"),
      heightPart (assocLookup (cleanAttrs attrs) "height") with
  | some ws, some hs =>
    some (if pyRemoveComma (ws ++ hs) = "" then ""
      else "[" ++ pyRemoveComma (ws ++ hs) ++ "]")
  | _, _ => none

/-- Modelled from the spec: the size options of an image node, one
`key=value` item per present size attribute, in width-height order. -/
def specSizeList (w h : Option String) : List String :=
  (match w with
   | none => []
   | some wv => ["width=" ++ wv]) ++
  (match h with
   | none => []
   | some hv => ["height=" ++ hv])

/-- Modelled from the spec: the size options are combined into one
bracketed, comma-joined list with no trailing comma, and the bracket group
is omitted entirely when no size attribute is present. -/
def specBracket (opts : List String) : String :=
  if opts = [] then "" else "[" ++ joinSep "," opts ++ "]"

/-- Modelled from the spec: the size-option group as the claim words it —
each present (cleaned) `width`/`height` value is rewritten by the size
formatter, the resulting options are comma-joined into one bracket group
with no trailing comma, omitted when no size attribute is present; a size
formatter failure is the build failure. -/
def specImageFormats (attrs : List (String × String)) : Option String :=
  match
    (match assocLookup (cleanAttrs attrs) "width" with
     | none => some none
     | some wv => (sizeValue "\\linewidth" wv).map some),
    (match assocLookup (cleanAttrs attrs) "height" with
     | none => some none
     | some hv => (sizeValue "\\textheight" hv).map some) with
  | some w, some h => some (specBracket (specSizeList w h))
  | _, _ => none

/-- The figure fragment returned by the image branch (md2tex.py lines
136-166), given the final caption text. -/
def renderFigure (url : String) (attrs : List (String × String))
    (caption : String) : Option String :=
  let lbl := (assocLookup attrs "label").getD ""
  let label := if lbl = "" then "" else "\\label\x7b" ++ lbl ++ "\x7d"
  match imageFormats attrs with
  | none => none
  | some formats =>
    some ("\\begin\x7bfigure\x7d[H]\n\\centering\n\\img" ++ formats ++
      "\x7b" ++ url ++ "\x7d\n\\caption\x7b" ++ caption ++ "\x7d" ++ label ++
      "\n\\end\x7bfigure\x7d")

/-- The `Image()` branch of `filter` (md2tex.py lines 130-166): an author
caption (trimmed, capitalized) wins; otherwise a warning is logged and the
caption resolver is consulted, its result capitalized. -/
def filterImage (env : Env) (st : CapState) (content url : String)
    (attrs : List (String × String)) : Option (String × CapState × Trace) :=
  let caption := pyCapitalize (pyStrip content)
  if caption = "" then
    match get_caption env st url with
    | none => none
    | some (c, st', tr) =>
      (renderFigure url attrs (pyCapitalize c)).map fun fig =>
        (fig, st',
          { tr with
              warnings := ("Image " ++ url ++ " has no caption") ::
                tr.warnings })
  else
    (renderFigure url attrs caption).map fun fig => (fig, st, ⟨[], 0, 0, 0⟩)

/-- A concrete external world used for evaluating the resolver: every path
exists, hashing tags the path, and the model always produces the same
lowercase sentence surrounded by whitespace. -/
def env0 : Env :=
  { imageDir := "/images"
    pathExists := fun _ => true
    hashOf := fun p => p ++ "#h"
    predict := fun _ => " a dog on the beach " }

/-- A concrete external world with no files on disk. -/
def envMissing : Env :=
  { imageDir := "/images"
    pathExists := fun _ => false
    hashOf := fun _ => ""
    predict := fun _ => "" }

/-- A parsed document node, restricted to the kinds `filter` dispatches on
(`Code`, `CodeBlock`, `Image`) plus a passthrough for every other kind. -/
inductive Node where
  | code (text : String)
  | codeBlock (classes : List String) (text : String)
  | image (content url : String) (attributes : List (String × String))
  | other
deriving DecidableEq

/-- The whole pattern-dispatched `filter` (md2tex.py lines 105-166): the
inner `Option` is the returned fragment (`none` = passthrough, Python's
implicit `None` return); the outer `Option` models a raised exception. -/
def filterNode (env : Env) (st : CapState) (language : String) :
    Node → Option (Option String × CapState × Trace)
  | Node.code text =>
    match filterCode language text with
    | Except.ok s => some (some s, st, ⟨[], 0, 0, 0⟩)
    | Except.error _ => none
  | Node.codeBlock classes text =>
    let lang := classes.headD language
    some (some ("\\begin\x7bminted\x7d\x7b" ++ lang ++ "\x7d\n" ++ text ++
      "\n\\end\x7bminted\x7d"), st, ⟨[], 0, 0, 0⟩)
  | Node.image content url attrs =>
    (filterImage env st content url attrs).map fun r => (some r.1, r.2)
  | Node.other => some (none, st, ⟨[], 0, 0, 0⟩)

/-! ### Shared lemmas -/

/-- Strings with equal character data are equal. -/
theorem strExt (a b : String) (h : a.data = b.data) : a = b := by
  cases a; cases b; simp_all

/-- Looking up the key just inserted returns the inserted value. -/
theorem assocLookup_insert_self (m : List (String × String)) (k v : String) :
    assocLookup (assocInsert m k v) k = some v := by
  induction m with
  | nil => simp [assocInsert, assocLookup]
  | cons e rest ih =>
    obtain ⟨k', v'⟩ := e
    by_cases h : k' = k
    · subst h
      simp [assocInsert, assocLookup]
    · simp [assocInsert, assocLookup, h, ih]

/-- Lookup commutes with mapping a function over the values. -/
theorem assocLookup_map (attrs : List (String × String))
    (g : String → String) (k : String) :
    assocLookup (attrs.map fun kv => (kv.1, g kv.2)) k =
      (assocLookup attrs k).map g := by
  induction attrs with
  | nil => simp [assocLookup]
  | cons e rest ih =>
    obtain ⟨k', v'⟩ := e
    by_cases h : k' = k <;> simp [assocLookup, h, ih]

/-- Python `removesuffix(",")` undoes appending a comma. -/
theorem pyRemoveComma_concat (s : String) : pyRemoveComma (s ++ ",") = s := by
  unfold pyRemoveComma lastCharIs strDropLast
  rw [String.data_append]
  rw [show ("," : String).data = [','] from rfl]
  rw [List.getLast?_concat, List.dropLast_concat]
  simp [strExt]

/-- A string starting with a literal chunk is not empty. -/
theorem append_ne_empty_of_ne (pre s : String) (h : pre.data ≠ []) :
    pre ++ s ≠ "" := by
  intro he
  have hd := congrArg String.data he
  rw [String.data_append] at hd
  exact h (List.append_eq_nil.mp (by simpa using hd)).1

/-! ### C1: inline-code delimiter selection -/

/-- C1: for every inline-code node the filter picks `!` when the text has no
`!`, `|` when it has `!` but no `|`, and the brace form when it has both and
the brace counts agree; concretely `"x"` gets `!`, `"a!b"` gets `|`, and
`"a!b|c"` gets braces. -/
theorem c1_delimiter_selection (lang text : String) :
    (strContains text '!' = false →
      filterCode lang text =
        Except.ok (mintHead lang ++ "!" ++ text ++ "!")) ∧
    (strContains text '!' = true → strContains text '|' = false →
      filterCode lang text =
        Except.ok (mintHead lang ++ "|" ++ text ++ "|")) ∧
    (strContains text '!' = true → strContains text '|' = true →
      countChar text '\x7b' = countChar text '\x7d' →
      filterCode lang text =
        Except.ok (mintHead lang ++ "\x7b" ++ text ++ "\x7d")) ∧
    filterCode "cpp" "x" = Except.ok "\\mintinline\x7bcpp\x7d!x!" ∧
    filterCode "cpp" "a!b" = Except.ok "\\mintinline\x7bcpp\x7d|a!b|" ∧
    filterCode "cpp" "a!b|c" =
      Except.ok "\\mintinline\x7bcpp\x7d\x7ba!b|c\x7d" := by
  refine ⟨?_, ?_, ?_, rfl, rfl, rfl⟩
  · intro h1
    unfold filterCode
    simp [h1]
  · intro h1 h2
    unfold filterCode
    simp [h1, h2]
  · intro h1 h2 h3
    unfold filterCode
    simp [h1, h2, h3]

/-- Witness for C1 at the three concrete fragments of the claim. -/
theorem c1_delimiter_selection_witness :
    filterCode "c" "x" = Except.ok (mintHead "c" ++ "!" ++ "x" ++ "!") ∧
    filterCode "c" "a!b" = Except.ok (mintHead "c" ++ "|" ++ "a!b" ++ "|") ∧
    filterCode "c" "a!b|c" =
      Except.ok (mintHead "c" ++ "\x7b" ++ "a!b|c" ++ "\x7d") :=
  ⟨(c1_delimiter_selection "c" "x").1 rfl,
   (c1_delimiter_selection "c" "a!b").2.1 rfl rfl,
   (c1_delimiter_selection "c" "a!b|c").2.2.1 rfl rfl rfl⟩

/-! ### C2: the unrepresentable-fragment error -/

/-- C2: the inline-code branch raises the "unable to parse" error exactly
when the text contains both `!` and `|` and has unequal `{`/`}` counts; in
every other case it returns a fragment. -/
theorem c2_error_iff (lang text : String) :
    (strContains text '!' = true → strContains text '|' = true →
      countChar text '\x7b' ≠ countChar text '\x7d' →
      filterCode lang text =
        Except.error ("Unable to parse code block \"" ++ text ++ "\"")) ∧
    (strContains text '!' = false ∨ strContains text '|' = false ∨
      countChar text '\x7b' = countChar text '\x7d' →
      ∃ s, filterCode lang text = Except.ok s) := by
  constructor
  · intro h1 h2 h3
    unfold filterCode
    simp [h1, h2, h3]
  · intro h
    unfold filterCode
    rcases hb1 : strContains text '!' with _ | _
    · exact ⟨mintHead lang ++ "!" ++ text ++ "!", by simp [hb1]⟩
    · rcases hb2 : strContains text '|' with _ | _
      · exact ⟨mintHead lang ++ "|" ++ text ++ "|", by simp [hb1, hb2]⟩
      · have h3 : countChar text '\x7b' = countChar text '\x7d' := by
          rcases h with h | h | h
          · rw [hb1] at h; exact absurd h (by simp)
          · rw [hb2] at h; exact absurd h (by simp)
          · exact h
        exact ⟨mintHead lang ++ "\x7b" ++ text ++ "\x7d",
          by simp [hb1, hb2, h3]⟩

/-- Witness for C2: a doubly-colliding unbalanced fragment errors, a plain
fragment succeeds. -/
theorem c2_error_iff_witness :
    filterCode "cpp" "a!b|\x7b" =
      Except.error ("Unable to parse code block \"" ++ "a!b|\x7b" ++ "\"") ∧
    ∃ s, filterCode "cpp" "x" = Except.ok s :=
  ⟨(c2_error_iff "cpp" "a!b|\x7b").1 rfl rfl (by decide),
   (c2_error_iff "cpp" "x").2 (Or.inl rfl)⟩

/-! ### C9 and C10: natural-language list formatting -/

/-- The three-or-more branch of `convert_list`, stated as an equation. -/
theorem convert_list_long (x y z : String) (rest : List String) :
    convert_list (x :: y :: z :: rest) =
      some (joinSep ", " ((x :: y :: z :: rest).dropLast) ++ ", and " ++
        rest.getLastD z) := rfl

/-- C9: a one-element list renders as its element, a two-element list as
`A and B`, and a list of three or more as the initial elements joined with
`", "` followed by `", and "` and the last element. -/
theorem c9_list_formatting (a b last : String) (l : List String) :
    convert_list [a] = some a ∧
    convert_list [a, b] = some (a ++ " and " ++ b) ∧
    (2 ≤ l.length →
      convert_list (l ++ [last]) =
        some (joinSep ", " l ++ ", and " ++ last)) := by
  refine ⟨rfl, rfl, ?_⟩
  intro hlen
  obtain ⟨x, y, rest, rfl⟩ : ∃ x y rest, l = x :: y :: rest := by
    match l, hlen with
    | x :: y :: rest, _ => exact ⟨x, y, rest, rfl⟩
  cases rest with
  | nil => rfl
  | cons z rs =>
    rw [show (x :: y :: z :: rs) ++ [last] = x :: y :: z :: (rs ++ [last])
      from by simp]
    rw [convert_list_long]
    rw [List.getLastD_concat]
    rw [show x :: y :: z :: (rs ++ [last]) = (x :: y :: z :: rs) ++ [last]
      from by simp]
    rw [List.dropLast_concat]

/-- Witness for C9 at a three-element list. -/
theorem c9_list_formatting_witness :
    convert_list (["A", "B"] ++ ["C"]) =
      some (joinSep ", " ["A", "B"] ++ ", and " ++ "C") :=
  (c9_list_formatting "A" "B" "C" ["A", "B"]).2.2 (by decide)

/-- C10: `convert_list` fails (the `l[-1]` access raises) exactly on the
empty list; every non-empty list reaches a returning branch. -/
theorem c10_nonempty_precondition (l : List String) (h : l ≠ []) :
    convert_list [] = none ∧ ∃ s, convert_list l = some s := by
  refine ⟨rfl, ?_⟩
  match l, h with
  | [x], _ => exact ⟨x, rfl⟩
  | [x, y], _ => exact ⟨_, rfl⟩
  | x :: y :: z :: rest, _ => exact ⟨_, rfl⟩

/-- Witness for C10 at a singleton list. -/
theorem c10_nonempty_precondition_witness :
    convert_list [] = none ∧ ∃ s, convert_list ["A"] = some s :=
  c10_nonempty_precondition ["A"] (by simp)

/-! ### C7: caption-cache round-trip -/

/-- Parsing a quoted scalar recovers the escaped content and the rest. -/
theorem parseQuotedAux_escape (s tail : List Char) :
    parseQuotedAux (escapeStr s ++ '"' :: tail) = some (s, tail) := by
  induction s with
  | nil =>
    rw [show escapeStr [] ++ '"' :: tail = '"' :: tail from rfl]
    rw [parseQuotedAux.eq_def]
    simp
  | cons c cs ih =>
    by_cases h1 : c = '\\'
    · subst h1
      rw [show escapeStr ('\\' :: cs) ++ '"' :: tail =
          '\\' :: '\\' :: (escapeStr cs ++ '"' :: tail)
        from by simp [escapeStr, escapeChar]]
      rw [parseQuotedAux.eq_def]
      simp [ih]
    · by_cases h2 : c = '"'
      · subst h2
        rw [show escapeStr ('"' :: cs) ++ '"' :: tail =
            '\\' :: '"' :: (escapeStr cs ++ '"' :: tail)
          from by simp [escapeStr, escapeChar]]
        rw [parseQuotedAux.eq_def]
        simp [ih]
      · rw [show escapeStr (c :: cs) ++ '"' :: tail =
            c :: (escapeStr cs ++ '"' :: tail)
          from by simp [escapeStr, escapeChar, h1, h2]]
        rw [parseQuotedAux.eq_def]
        simp [h1, h2, ih]

/-- Parsing one serialized entry recovers the binding and the rest. -/
theorem parseEntry_dump (k v : String) (rest : List Char) :
    parseEntry (dumpEntry k v ++ rest) = some (k, v, rest) := by
  obtain ⟨kd⟩ := k
  obtain ⟨vd⟩ := v
  simp [dumpEntry, parseEntry, List.cons_append, List.append_assoc,
    parseQuotedAux_escape]

/-- Unfolding `loadCacheAux` one step on a non-empty input. -/
theorem loadCacheAux_step (cs : List Char) (fuel : Nat) (h : cs ≠ []) :
    loadCacheAux cs (fuel + 1) =
      match parseEntry cs with
      | none => none
      | some (k, v, rest) =>
        match loadCacheAux rest fuel with
        | none => none
        | some m => some ((k, v) :: m) := by
  cases cs with
  | nil => exact absurd rfl h
  | cons c cs' => rfl

/-- With enough fuel, parsing a dumped cache recovers it exactly. -/
theorem loadCacheAux_dump (m : CacheMap) (fuel : Nat) (h : m.length ≤ fuel) :
    loadCacheAux (dumpCache m) fuel = some m := by
  induction m generalizing fuel with
  | nil => cases fuel <;> simp [dumpCache, loadCacheAux]
  | cons e m' ih =>
    obtain ⟨k, v⟩ := e
    cases fuel with
    | zero => simp at h
    | succ f =>
      rw [show dumpCache ((k, v) :: m') = dumpEntry k v ++ dumpCache m'
        from rfl]
      rw [loadCacheAux_step _ _ (by simp [dumpEntry])]
      simp [parseEntry_dump, ih f (by simpa using h)]

/-- A dumped cache is at least as long (in characters) as its entry list. -/
theorem length_le_dumpCache (m : CacheMap) :
    m.length ≤ (dumpCache m).length := by
  induction m with
  | nil => simp [dumpCache]
  | cons e m' ih =>
    obtain ⟨k, v⟩ := e
    simp only [dumpCache, dumpEntry, List.length_cons, List.length_append]
    omega

/-- Round-trip helper: parsing a dumped cache recovers it. -/
theorem loadCache_dump (m : CacheMap) : loadCache (dumpCache m) = some m := by
  unfold loadCache
  exact loadCacheAux_dump m _
    (le_trans (length_le_dumpCache m) (Nat.le_succ _))

/-- C7: writing the caption cache with the cache writer (`dumpCache`, the
file content produced by `write_caption_cache`) and reloading it with the
cache reader (`loadCache`, as in `get_caption_cache`) yields the identical
key-to-value mapping. -/
theorem c7_cache_roundtrip (m : CacheMap) :
    loadCache (dumpCache m) = some m :=
  loadCache_dump m

/-! ### C6: missing images degrade gracefully -/

/-- C6: when the resolved image path does not exist, `get_caption` logs the
diagnostic and returns the empty string; no model invocation and no caption
cache read or write happens (the cache state `mem`/`file` is untouched and
the trace counters are all zero), so the build continues. -/
theorem c6_missing_image (env : Env) (st : CapState) (p : String)
    (hmemo : assocLookup st.memo p = none)
    (hex : env.pathExists (resolvePath env p) = false) :
    get_caption env st p =
      some ("", { st with memo := assocInsert st.memo p "" },
        ⟨["Image " ++ resolvePath env p ++ " does not exist"], 0, 0, 0⟩) := by
  unfold get_caption
  rw [hmemo]
  simp [hex]

/-- Witness for C6 on a concrete empty filesystem. -/
theorem c6_missing_image_witness :
    get_caption envMissing ⟨[], none, []⟩ "pic.png" =
      some ("", ⟨[("pic.png", "")], none, []⟩,
        ⟨["Image /images/pic.png does not exist"], 0, 0, 0⟩) :=
  c6_missing_image envMissing ⟨[], none, []⟩ "pic.png" rfl rfl

/-! ### C3: what a cache miss stores and returns -/

/-- C3 (amended): on a caption-cache miss the resolver invokes the model
exactly once, stores the whitespace-stripped (but NOT capitalized) model
output in the cache under the content hash, persists the cache, and returns
exactly the stored value; the first-letter capitalization happens later in
the filter, not in the resolver or the cache. -/
theorem c3_cache_miss_stores_stripped (env : Env) (st : CapState)
    (p : String) (m : CacheMap)
    (hmemo : assocLookup st.memo p = none)
    (hex : env.pathExists (resolvePath env p) = true)
    (hmem : st.mem = some m)
    (hmiss : assocLookup m (env.hashOf (resolvePath env p)) = none) :
    get_caption env st p =
      some (pyStrip (env.predict (resolvePath env p)),
        { memo := assocInsert st.memo p
            (pyStrip (env.predict (resolvePath env p)))
          mem := some (assocInsert m (env.hashOf (resolvePath env p))
            (pyStrip (env.predict (resolvePath env p))))
          file := dumpCache (assocInsert m (env.hashOf (resolvePath env p))
            (pyStrip (env.predict (resolvePath env p)))) },
        ⟨[], 1, 1, 1⟩) ∧
    assocLookup
        (assocInsert m (env.hashOf (resolvePath env p))
          (pyStrip (env.predict (resolvePath env p))))
        (env.hashOf (resolvePath env p)) =
      some (pyStrip (env.predict (resolvePath env p))) := by
  constructor
  · unfold get_caption getCaptionCacheS
    rw [hmemo, hmem]
    simp [hex, hmiss]
  · exact assocLookup_insert_self m _ _

/-- Witness for C3 (amended) in the concrete world `env0`. -/
theorem c3_cache_miss_stores_stripped_witness :
    get_caption env0 ⟨[], some [], []⟩ "pic.png" =
      some (pyStrip (env0.predict (resolvePath env0 "pic.png")),
        { memo := assocInsert [] "pic.png"
            (pyStrip (env0.predict (resolvePath env0 "pic.png")))
          mem := some (assocInsert []
            (env0.hashOf (resolvePath env0 "pic.png"))
            (pyStrip (env0.predict (resolvePath env0 "pic.png"))))
          file := dumpCache (assocInsert []
            (env0.hashOf (resolvePath env0 "pic.png"))
            (pyStrip (env0.predict (resolvePath env0 "pic.png")))) },
        ⟨[], 1, 1, 1⟩) ∧
    assocLookup
        (assocInsert [] (env0.hashOf (resolvePath env0 "pic.png"))
          (pyStrip (env0.predict (resolvePath env0 "pic.png"))))
        (env0.hashOf (resolvePath env0 "pic.png")) =
      some (pyStrip (env0.predict (resolvePath env0 "pic.png"))) :=
  c3_cache_miss_stores_stripped env0 ⟨[], some [], []⟩ "pic.png" []
    rfl rfl rfl rfl

/-- C3 counterexample: in the concrete world `env0` the model yields
`" a dog on the beach "`; the resolver stores and returns the stripped
value `"a dog on the beach"`, whose first letter is NOT capitalized — the
value written to the cache is not the capitalized caption the claim
promises. -/
theorem c3_counterexample :
    get_caption env0 ⟨[], some [], []⟩ "pic.png" =
      some ("a dog on the beach",
        ⟨[("pic.png", "a dog on the beach")],
          some [("/images/pic.png#h", "a dog on the beach")],
          dumpCache [("/images/pic.png#h", "a dog on the beach")]⟩,
        ⟨[], 1, 1, 1⟩) ∧
    ("a dog on the beach" : String) ≠ pyCapitalize "a dog on the beach" :=
  ⟨rfl, by decide⟩

/-! ### C5: idempotence and memoization of the resolver -/

/-- C5: the resolver is idempotent.  After a first call from a fresh
process state (empty memo table, unloaded cache, persisted file `f`), (a) a
repeat call in the same process is served from the memo table: it returns
the same caption with the state unchanged and no warning, model call, cache
read or write; and (b) a call in a fresh process over the persisted file
(the across-runs cache-hit path) returns exactly the same caption with zero
model calls, one cache read, and the same persisted file. -/
theorem c5_resolver_idempotent (env : Env) (p : String) (f : List Char)
    (m0 : CacheMap) (c : String) (st' : CapState) (tr : Trace)
    (h : get_caption env ⟨[], none, f⟩ p = some (c, st', tr))
    (hex : env.pathExists (resolvePath env p) = true)
    (hf : loadCache f = some m0) :
    get_caption env st' p = some (c, st', ⟨[], 0, 0, 0⟩) ∧
    ∃ st'' : CapState,
      get_caption env ⟨[], none, st'.file⟩ p =
        some (c, st'', ⟨[], 0, 1, 0⟩) ∧ st''.file = st'.file := by
  have h' := h
  unfold get_caption getCaptionCacheS at h'
  simp only [assocLookup, hf, hex] at h'
  cases hc : assocLookup m0 (env.hashOf (resolvePath env p)) with
  | some c0 =>
    rw [hc] at h'
    simp at h'
    obtain ⟨rfl, rfl, rfl⟩ := h'
    constructor
    · unfold get_caption
      simp [assocInsert, assocLookup]
    · refine ⟨_, ?_, rfl⟩
      unfold get_caption getCaptionCacheS
      simp only [assocLookup, hf, hex, hc]
      simp
  | none =>
    rw [hc] at h'
    simp at h'
    obtain ⟨rfl, rfl, rfl⟩ := h'
    constructor
    · unfold get_caption
      simp [assocInsert, assocLookup]
    · refine ⟨_, ?_, rfl⟩
      unfold get_caption getCaptionCacheS
      simp only [assocLookup, loadCache_dump, hex, assocLookup_insert_self]
      simp

/-- Witness for C5 in the concrete world `env0`, starting from an empty
persisted cache file. -/
theorem c5_resolver_idempotent_witness :
    get_caption env0
        ⟨[("pic.png", "a dog on the beach")],
          some [("/images/pic.png#h", "a dog on the beach")],
          dumpCache [("/images/pic.png#h", "a dog on the beach")]⟩ "pic.png" =
      some ("a dog on the beach",
        ⟨[("pic.png", "a dog on the beach")],
          some [("/images/pic.png#h", "a dog on the beach")],
          dumpCache [("/images/pic.png#h", "a dog on the beach")]⟩,
        ⟨[], 0, 0, 0⟩) ∧
    ∃ st'' : CapState,
      get_caption env0
          ⟨[], none,
            (⟨[("pic.png", "a dog on the beach")],
              some [("/images/pic.png#h", "a dog on the beach")],
              dumpCache [("/images/pic.png#h", "a dog on the beach")]⟩ :
              CapState).file⟩ "pic.png" =
        some ("a dog on the beach", st'', ⟨[], 0, 1, 0⟩) ∧
      st''.file =
        (⟨[("pic.png", "a dog on the beach")],
          some [("/images/pic.png#h", "a dog on the beach")],
          dumpCache [("/images/pic.png#h", "a dog on the beach")]⟩ :
          CapState).file :=
  c5_resolver_idempotent env0 "pic.png" [] [] _ _ _ rfl rfl rfl

/-! ### C4: author captions win, modulo Python capitalize -/

/-- C4 (amended): when the trimmed-and-capitalized inline caption content
is non-empty, the filter uses `pyCapitalize (pyStrip content)` — the first
character uppercased and every following character lowercased, as Python's
`str.capitalize` does — as the caption, and consults neither the caption
cache nor the model (the state is returned unchanged and the trace is
zero). -/
theorem c4_author_caption (env : Env) (st : CapState) (content url : String)
    (attrs : List (String × String))
    (h : pyCapitalize (pyStrip content) ≠ "") :
    filterImage env st content url attrs =
      (renderFigure url attrs (pyCapitalize (pyStrip content))).map
        (fun fig => (fig, st, (⟨[], 0, 0, 0⟩ : Trace))) ∧
    (∀ c cs, (pyStrip content).data = c :: cs →
      pyCapitalize (pyStrip content) =
        String.mk (c.toUpper :: cs.map Char.toLower)) := by
  constructor
  · unfold filterImage
    simp [h]
  · intro c cs hcs
    unfold pyCapitalize
    rw [hcs]

/-- Witness for C4 (amended) at the author caption `" ok "`. -/
theorem c4_author_caption_witness :
    filterImage env0 ⟨[], none, []⟩ " ok " "u" [] =
      (renderFigure "u" [] (pyCapitalize (pyStrip " ok "))).map
        (fun fig =>
          (fig, (⟨[], none, []⟩ : CapState), (⟨[], 0, 0, 0⟩ : Trace))) ∧
    (∀ c cs, (pyStrip " ok ").data = c :: cs →
      pyCapitalize (pyStrip " ok ") =
        String.mk (c.toUpper :: cs.map Char.toLower)) :=
  c4_author_caption env0 ⟨[], none, []⟩ " ok " "u" [] (by decide)

/-- C4 counterexample: the author caption `"a BC"` is trimmed to `"a BC"`,
but the filter embeds `"A bc"` — the non-first characters are NOT preserved
unchanged (Python `capitalize` lowercases them), refuting the claim that
only the first character's case changes. -/
theorem c4_counterexample :
    filterImage env0 ⟨[], some [], []⟩ "a BC" "pic.png" [] =
      some ("\\begin\x7bfigure\x7d[H]\n\\centering\n\\img\x7bpic.png\x7d\n\\caption\x7bA bc\x7d\n\\end\x7bfigure\x7d",
        ⟨[], some [], []⟩, ⟨[], 0, 0, 0⟩) ∧
    pyStrip "a BC" = "a BC" ∧
    ("A bc" : String) ≠ "A BC" :=
  ⟨rfl, by decide, by decide⟩

/-! ### C8: image size attributes -/

/-- Lookup in the cleaned attribute dict is cleaned lookup. -/
theorem assocLookup_cleanAttrs (attrs : List (String × String))
    (k : String) :
    assocLookup (cleanAttrs attrs) k =
      (assocLookup attrs k).map pyCleanValue :=
  assocLookup_map attrs pyCleanValue k

/-- A non-percent size value passes through `sizeValue` unchanged. -/
theorem sizeValue_pass (unit v : String) (h : lastCharIs v '%' = false) :
    sizeValue unit v = some v := by
  unfold sizeValue
  rw [h]
  rfl

/-- A percent size value is rewritten to the scaled fraction. -/
theorem sizeValue_percent (unit v : String) (n : Int)
    (h : lastCharIs v '%' = true) (hp : pyInt (strDropLast v) = some n) :
    sizeValue unit v = some (decimalDiv100Int n ++ unit) := by
  unfold sizeValue
  rw [h]
  simp [hp]

/-- Nonempty left factors keep appends nonempty. -/
theorem append_ne_empty_left (s t : String) (h : s ≠ "") : s ++ t ≠ "" := by
  intro he
  have hd := congrArg String.data he
  rw [String.data_append] at hd
  have h2 := (List.append_eq_nil.mp (by simpa using hd)).1
  exact h (strExt _ _ (by simpa using h2))

/-- Appending the empty string on the left is the identity. -/
theorem empty_append_str (s : String) : "" ++ s = s :=
  strExt _ _ (by simp [String.data_append])

/-- The source's size-option group agrees with the spec-worded one on every
width/height configuration: present attributes (and only those, in
width-height order) contribute their rewritten values to one comma-joined
bracketed list with no trailing comma, omitted when both are absent, and a
size-formatter failure on either attribute fails the whole group. -/
theorem imageFormats_eq_spec (attrs : List (String × String)) :
    imageFormats attrs = specImageFormats attrs := by
  unfold imageFormats specImageFormats
  cases hW : assocLookup (cleanAttrs attrs) "width" with
  | none =>
    cases hH : assocLookup (cleanAttrs attrs) "height" with
    | none =>
      simp [widthPart, heightPart, specSizeList, specBracket, pyRemoveComma,
        lastCharIs]
    | some hv =>
      cases hsv : sizeValue "\\textheight" hv with
      | none => simp [widthPart, heightPart, hsv]
      | some h' =>
        have hne := append_ne_empty_of_ne "height=" h' (by decide)
        simp [widthPart, heightPart, hsv, empty_append_str,
          pyRemoveComma_concat, hne, specSizeList, specBracket, joinSep]
  | some wv =>
    cases hsw : sizeValue "\\linewidth" wv with
    | none =>
      cases hH : assocLookup (cleanAttrs attrs) "height" with
      | none => simp [widthPart, heightPart, hsw]
      | some hv =>
        cases hsv : sizeValue "\\textheight" hv with
        | none => simp [widthPart, heightPart, hsw, hsv]
        | some h' => simp [widthPart, heightPart, hsw, hsv]
    | some w' =>
      cases hH : assocLookup (cleanAttrs attrs) "height" with
      | none =>
        have hne := append_ne_empty_of_ne "width=" w' (by decide)
        simp [widthPart, heightPart, hsw, pyRemoveComma_concat, hne,
          specSizeList, specBracket, joinSep]
      | some hv =>
        cases hsv : sizeValue "\\textheight" hv with
        | none => simp [widthPart, heightPart, hsw, hsv]
        | some h' =>
          have hne : ("width=" ++ w' ++ "," ++ "height=" ++ h') ≠ "" := by
            refine append_ne_empty_left _ _ ?_
            refine append_ne_empty_left _ _ ?_
            refine append_ne_empty_left _ _ ?_
            exact append_ne_empty_of_ne "width=" _ (by decide)
          simp only [widthPart, heightPart, hsw, hsv, Option.map]
          rw [show ("width=" ++ w' ++ ",") ++ ("height=" ++ h' ++ ",") =
              ("width=" ++ w' ++ "," ++ "height=" ++ h') ++ ","
            from strExt _ _ (by simp [String.data_append])]
          rw [pyRemoveComma_concat]
          rw [if_neg hne]
          simp [specSizeList, specBracket, joinSep]
          all_goals exact strExt _ _ (by simp [String.data_append])

/-- C8: for every width/height configuration, the size-option group equals
the spec-worded combination — each present (cleaned) value contributes its
rewritten form, comma-joined into one bracket group with no trailing comma,
omitted entirely when no size attribute is present; per value, a trailing
`%` is rewritten to the numeric value (as Python `int()` reads it, signs,
surrounding whitespace and digit underscores included) divided by 100
followed by the unit, and any other value passes through unchanged.
Concretely `"50%"` yields `0.5\linewidth`, `"3in"` passes through, and the
mixed, negative and underscore cases combine as claimed. -/
theorem c8_image_sizing (attrs : List (String × String)) :
    imageFormats attrs = specImageFormats attrs ∧
    (∀ unit v n, lastCharIs v '%' = true → pyInt (strDropLast v) = some n →
      sizeValue unit v = some (decimalDiv100Int n ++ unit)) ∧
    (∀ unit v, lastCharIs v '%' = false → sizeValue unit v = some v) ∧
    imageFormats [("width", "50%")] = some "[width=0.5\\linewidth]" ∧
    imageFormats [("width", "3in")] = some "[width=3in]" ∧
    imageFormats [("width", "50%"), ("height", "3in")] =
      some "[width=0.5\\linewidth,height=3in]" ∧
    imageFormats [("width", "-50%")] = some "[width=-0.5\\linewidth]" ∧
    imageFormats [("width", "3in"), ("height", "5_0 %,")] =
      some "[width=3in,height=0.5\\textheight]" ∧
    imageFormats [] = some "" := by
  refine ⟨imageFormats_eq_spec attrs, ?_, ?_, by decide, by decide,
    by decide, by decide, by decide, by decide⟩
  · intro unit v n hpc hp
    exact sizeValue_percent unit v n hpc hp
  · intro unit v hpc
    exact sizeValue_pass unit v hpc

/-- Witness for C8: the percent and passthrough rewrite rules at concrete
values. -/
theorem c8_image_sizing_witness :
    sizeValue "\\linewidth" "50%" =
      some (decimalDiv100Int 50 ++ "\\linewidth") ∧
    sizeValue "\\textheight" "3in" = some "3in" :=
  ⟨(c8_image_sizing []).2.1 "\\linewidth" "50%" 50 (by decide) (by decide),
   (c8_image_sizing []).2.2.1 "\\textheight" "3in" (by decide)⟩

end FTCDoc
